import Mathlib

/-!
# Remote shell server (`task2_server.cpp`, `lab3-os.h`)

A shallow embedding of the request pipeline of the server:
`is_command_forbidden`, `handle_client`, `execute_command`,
`send_http_response_success`, `send_http_response_forbidden` and the child
branch of `start_server`.

Conventions of the embedding.

* A byte is a natural number (`Byte`); text constants of the source are written
  with `ascii`, which maps every character of an ASCII literal to its code.
* A `const char *` value is represented by the *contents* of the C string it
  points to: the bytes before the terminating NUL. `strlen` is therefore the
  length of that list. Raw memory that may hold NUL bytes (what `recv` stored,
  what `fgets` stored) is turned into the C string that starts there by `cstr`.
* System calls are recorded as a list of `Event`s in program order. What the
  outside world answers (what `recv` returns, whether `popen` succeeds and what
  the subprocess prints, whether each `send` succeeds) is the `Env` argument.
-/

namespace Lab3

/-! ## Bytes and C strings -/

/-- One `char` of the C program, as its numeric value. -/
abbrev Byte := Nat

/-- The bytes of an ASCII string literal. -/
def ascii (s : String) : List Byte := s.toList.map Char.toNat

/-- The C string that starts at the beginning of `mem`: the bytes before the
first NUL byte. -/
def cstr (mem : List Byte) : List Byte := mem.takeWhile (fun b => b != 0)

/-- The value of `strlen(s)` for a C string given by its contents. -/
def strlen (s : List Byte) : Nat := s.length

/-- The result of `strstr(haystack, needle)`: the suffix of `haystack` that starts at the first
occurrence of `needle`, or `none` (NULL) when `needle` does not occur. -/
def strstr : List Byte → List Byte → Option (List Byte)
  | [], needle => if needle = [] then some [] else none
  | h :: t, needle =>
    if needle.isPrefixOf (h :: t) then some (h :: t) else strstr t needle

/-- What `snprintf(buf, size, ...)` stores: the formatted text, cut to `size - 1` bytes. -/
def snprintf (size : Nat) (formatted : List Byte) : List Byte :=
  formatted.take (size - 1)

/-- The text `%zu` prints for `n`. -/
def decimal (n : Nat) : List Byte := (Nat.toDigits 10 n).map Char.toNat

/-- What `strncat(dest, src, n)` leaves in `dest`: `dest` followed by at most `n` bytes of the C string
stored in `src`. -/
def strncat (dest src : List Byte) (n : Nat) : List Byte :=
  dest ++ (cstr src).take n

/-! ## Constants of `lab3-os.h` -/

/-- The constant `#define MSG_BUFFER_SIZE 4096`. -/
def MSG_BUFFER_SIZE : Nat := 4096

/-- The constant `EXIT_SUCCESS` of `stdlib.h`. -/
def EXIT_SUCCESS : Nat := 0

/-- The constant `EXIT_FAILURE` of `stdlib.h`. -/
def EXIT_FAILURE : Nat := 1

/-- The array `FORBIDDEN_CMD` of `lab3-os.h`, without its NULL terminator (the
entry `rmdir` is listed twice in the source). -/
def FORBIDDEN_CMD : List (List Byte) :=
  [ascii "rm", ascii "rmdir", ascii "shutdown", ascii "reboot", ascii "mv",
   ascii "rmdir", ascii "touch", ascii "cp"]

/-! ## `is_command_forbidden` -/

/-- The loop of `is_command_forbidden`, from the entry at the head of the list
up to the NULL terminator. -/
def is_command_forbidden_from (command : List Byte) : List (List Byte) → Bool
  | [] => false
  | entry :: rest =>
    if (strstr command entry).isSome then true
    else is_command_forbidden_from command rest

/-- The function `bool is_command_forbidden(const char *command)`. -/
def is_command_forbidden (command : List Byte) : Bool :=
  is_command_forbidden_from command FORBIDDEN_CMD

/-! ## System calls and the environment -/

/-- A system or library call made by the handler, in program order. -/
inductive Event where
  /-- A call `send(fd, data, strlen(data), 0)`; `ok` is false when it returned -1. -/
  | send (fd : Int) (data : List Byte) (ok : Bool)
  /-- A call `close(fd)`. -/
  | close (fd : Int)
  /-- A call `popen(command, "r")`; `ok` is false when it returned NULL. -/
  | popen (command : List Byte) (ok : Bool)
  /-- A call `pclose(fp)`. -/
  | pclose
  /-- A call `perror(tag)`. -/
  | perror (tag : List Byte)
  /-- A call of `printf`, with the text it prints. -/
  | printf (text : List Byte)
  /-- A call `exit(status)`. -/
  | exit (status : Nat)
  deriving DecidableEq, Repr

/-- What the outside world answers to the handler of one connection. -/
structure Env where
  /-- What `recv` finds on the connection: `none` when `recv` fails with -1,
  else the bytes available to the call (none at all when the peer has closed);
  `recv` stores at most `MSG_BUFFER_SIZE - 1` of them. -/
  pending : Option (List Byte)
  /-- The subprocess: for a command line, `none` when `popen` returns NULL,
  else everything the subprocess writes to the pipe. -/
  subprocess : List Byte → Option (List Byte)
  /-- Whether the `send` of the response header succeeds. -/
  send_header_ok : Bool
  /-- Whether the `send` of the response body succeeds. -/
  send_body_ok : Bool

/-- A function that either returned to its caller or ended the process with
`exit`, with the calls it made. -/
structure Run where
  /-- The calls made, in order. -/
  trace : List Event
  /-- Whether the process has exited. -/
  exited : Bool
  deriving DecidableEq, Repr

/-- A `send` call and the `perror("send")` that follows a failure. -/
def send_call (fd : Int) (data : List Byte) (ok : Bool) : List Event :=
  if ok then [Event.send fd data true]
  else [Event.send fd data false, Event.perror (ascii "send")]

/-! ## Response writers -/

/-- The header `send_http_response_success` formats for `body`. -/
def success_header (body : List Byte) : List Byte :=
  snprintf MSG_BUFFER_SIZE
    (ascii "HTTP/1.1 200 OK\r\n" ++
     ascii "Content-Type: text/plain\r\n" ++
     ascii "Content-Length: " ++ decimal (strlen body) ++ ascii "\r\n" ++
     ascii "Connection: close\r\n" ++
     ascii "\r\n")

/-- The header `send_http_response_forbidden` formats for `body`. -/
def forbidden_header (body : List Byte) : List Byte :=
  snprintf MSG_BUFFER_SIZE
    (ascii "HTTP/1.1 403 Forbidden\r\n" ++
     ascii "Content-Type: text/plain\r\n" ++
     ascii "Content-Length: " ++ decimal (strlen body) ++ ascii "\r\n" ++
     ascii "Connection: close\r\n" ++
     ascii "\r\n")

/-- The function `void send_http_response_success(int client_fd, const char *body)`. -/
def send_http_response_success (env : Env) (client_fd : Int) (body : List Byte) :
    List Event :=
  let header := success_header body
  send_call client_fd header env.send_header_ok ++
  send_call client_fd body env.send_body_ok ++
  [Event.close client_fd, Event.printf (ascii "[Child] Session closed.\n")]

/-- The function `void send_http_response_forbidden(int client_fd, const char *body)`. -/
def send_http_response_forbidden (env : Env) (client_fd : Int) (body : List Byte) :
    List Event :=
  let header := forbidden_header body
  send_call client_fd header env.send_header_ok ++
  send_call client_fd body env.send_body_ok ++
  [Event.close client_fd, Event.printf (ascii "[Child] Session closed.\n")]

/-! ## `execute_command` -/

/-- The bytes one `fgets` call stores, and the rest of the stream: at most
`room` bytes are read, and reading stops after a newline. -/
def fgets_read : Nat → List Byte → List Byte × List Byte
  | 0, stream => ([], stream)
  | _ + 1, [] => ([], [])
  | room + 1, b :: stream =>
    if b = 10 then ([b], stream)
    else ((b :: (fgets_read room stream).1), (fgets_read room stream).2)

/-- The result of `fgets(result, size, fp)`: `none` (NULL) at end of stream, else the bytes
stored in `result` (before the terminating NUL) and the rest of the stream. -/
def fgets (size : Nat) (fp : List Byte) : Option (List Byte × List Byte) :=
  match fp with
  | [] => none
  | _ :: _ => some (fgets_read (size - 1) fp)

/-- The loop `while (fgets(result, sizeof(result), fp) != NULL) strncat(...)` of
`execute_command`, run for at most `fuel` iterations: `none` when the fuel runs
out before `fgets` returns NULL, else the contents of `output`. -/
def read_loop : Nat → List Byte → List Byte → Option (List Byte)
  | 0, _, _ => none
  | fuel + 1, fp, output =>
    match fgets MSG_BUFFER_SIZE fp with
    | none => some output
    | some (result, rest) =>
      read_loop fuel rest
        (strncat output result (MSG_BUFFER_SIZE * 2 - strlen output - 1))

/-- The contents of `output` when the read loop of `execute_command` ends. Every
iteration consumes at least one byte of the stream, so `length + 1` iterations
are enough (`read_loop_terminates`). -/
def read_output (fp : List Byte) : List Byte :=
  (read_loop (fp.length + 1) fp []).getD []

/-- The command line `execute_command` formats into `full_command`. -/
def full_command (cmd : List Byte) : List Byte :=
  snprintf MSG_BUFFER_SIZE (cmd ++ ascii " 2>&1")

/-- The body `execute_command` passes to `send_http_response_success` when the
subprocess wrote `stream`. -/
def response_body (stream : List Byte) : List Byte :=
  let output := read_output stream
  if strlen output = 0 then ascii "Command executed but no output.\n" else output

/-- The function `void execute_command(const char *cmd, int client_fd)`. -/
def execute_command (env : Env) (cmd : List Byte) (client_fd : Int) : List Event :=
  match env.subprocess (full_command cmd) with
  | none => [Event.popen (full_command cmd) false, Event.perror (ascii "popen")]
  | some stream =>
    [Event.popen (full_command cmd) true, Event.pclose] ++
    send_http_response_success env client_fd (response_body stream)

/-! ## `handle_client` and the child branch of `start_server` -/

/-- The delimiter `handle_client` searches for. -/
def CRLFCRLF : List Byte := ascii "\r\n\r\n"

/-- The function `void handle_client(int client_fd)`. -/
def handle_client (env : Env) (client_fd : Int) : Run :=
  match env.pending with
  | none =>
    ⟨[Event.perror (ascii "recv"), Event.close client_fd, Event.exit EXIT_FAILURE], true⟩
  | some pending =>
    let received := pending.take (MSG_BUFFER_SIZE - 1)
    if received.length = 0 then
      ⟨[Event.perror (ascii "recv"), Event.close client_fd, Event.exit EXIT_FAILURE], true⟩
    else
      match strstr (cstr received) CRLFCRLF with
      | none =>
        ⟨[Event.printf (ascii "Malformed HTTP request (no body found).\n"),
          Event.close client_fd, Event.exit EXIT_FAILURE], true⟩
      | some found =>
        let body := found.drop 4
        let log := Event.printf (ascii "[Child] Received command: " ++ body ++ ascii "\n")
        if is_command_forbidden body then
          ⟨log :: send_http_response_forbidden env client_fd (ascii "Forbidden command."),
           false⟩
        else
          ⟨log :: execute_command env body client_fd, false⟩

/-- The child branch of the accept loop of `start_server` (`if (!fork()) ...`);
`addr` is the text of `inet_ntoa(client_addr.sin_addr)`. -/
def start_server_child (env : Env) (server_sock client_fd : Int) (addr : List Byte) :
    List Event :=
  let handled := handle_client env client_fd
  if handled.exited then Event.close server_sock :: handled.trace
  else
    Event.close server_sock :: handled.trace ++
    [Event.close client_fd,
     Event.printf (ascii "Session closed for " ++ addr ++ ascii "\n"),
     Event.exit EXIT_SUCCESS]

/-- The number of `close(fd)` calls in a trace. -/
def close_calls (fd : Int) (trace : List Event) : Nat :=
  trace.count (Event.close fd)

/-- The bytes that reached the connection `fd`: the data of the `send` calls
on `fd` that succeeded, in order. -/
def bytes_written (fd : Int) : List Event → List Byte
  | [] => []
  | Event.send fd2 data true :: rest =>
    if fd2 = fd then data ++ bytes_written fd rest else bytes_written fd rest
  | _ :: rest => bytes_written fd rest

/-- Whether the trace spawns a subprocess (calls `popen`). -/
def spawns : List Event → Bool
  | [] => false
  | Event.popen _ _ :: _ => true
  | _ :: rest => spawns rest

/-- The data handed to `send` on `fd`, call by call, whether or not the call
succeeded. -/
def send_args (fd : Int) : List Event → List (List Byte)
  | [] => []
  | Event.send fd2 data _ :: rest =>
    if fd2 = fd then data :: send_args fd rest else send_args fd rest
  | _ :: rest => send_args fd rest

/-! ## Lemmas on `strstr` -/

theorem strstr_isSome_iff (hay needle : List Byte) :
    (strstr hay needle).isSome = true ↔ needle <:+: hay := by
  induction hay with
  | nil =>
    by_cases h : needle = []
    · simp [strstr, h]
    · simp [strstr, h]
  | cons a t ih =>
    rw [strstr, List.infix_cons_iff]
    by_cases h : needle.isPrefixOf (a :: t) = true
    · rw [if_pos h]
      simp only [Option.isSome_some, true_iff]
      exact Or.inl (List.isPrefixOf_iff_prefix.mp h)
    · rw [if_neg h, ih]
      constructor
      · exact Or.inr
      · rintro (hp | hi)
        · exact absurd (List.isPrefixOf_iff_prefix.mpr hp) h
        · exact hi

theorem is_command_forbidden_from_iff (command : List Byte) (entries : List (List Byte)) :
    is_command_forbidden_from command entries = true ↔ ∃ e ∈ entries, e <:+: command := by
  induction entries with
  | nil => simp [is_command_forbidden_from]
  | cons e rest ih =>
    rw [is_command_forbidden_from]
    by_cases h : (strstr command e).isSome = true
    · rw [if_pos h]
      simp only [true_iff]
      exact ⟨e, List.mem_cons_self _ _, (strstr_isSome_iff _ _).mp h⟩
    · rw [if_neg h, ih]
      constructor
      · rintro ⟨x, hx, hi⟩
        exact ⟨x, List.mem_cons_of_mem _ hx, hi⟩
      · rintro ⟨x, hx, hi⟩
        rcases List.mem_cons.mp hx with rfl | hx
        · exact absurd ((strstr_isSome_iff _ _).mpr hi) h
        · exact ⟨x, hx, hi⟩

theorem is_command_forbidden_iff (command : List Byte) :
    is_command_forbidden command = true ↔ ∃ e ∈ FORBIDDEN_CMD, e <:+: command :=
  is_command_forbidden_from_iff command FORBIDDEN_CMD

theorem is_command_forbidden_of_occurrence (command e : List Byte) (he : e ∈ FORBIDDEN_CMD)
    (h : e <:+: command) : is_command_forbidden command = true :=
  (is_command_forbidden_iff command).mpr ⟨e, he, h⟩

/-! ## The denylist check -/

/-- C1: `is_command_forbidden c` is true exactly when an entry of the denylist
(rm, rmdir, shutdown, reboot, mv, touch, cp) occurs in `c` as a contiguous,
literal substring, wherever it stands (after any prefix, before any suffix); it
is true for "echo touchdown", which contains "touch", and false for every `c`
that contains no entry. -/
theorem C1_is_command_forbidden_iff_substring :
    (∀ c : List Byte, is_command_forbidden c = true ↔
      (ascii "rm" <:+: c ∨ ascii "rmdir" <:+: c ∨ ascii "shutdown" <:+: c ∨
       ascii "reboot" <:+: c ∨ ascii "mv" <:+: c ∨ ascii "touch" <:+: c ∨
       ascii "cp" <:+: c)) ∧
    (∀ c : List Byte, is_command_forbidden c = true ↔
      ∃ e ∈ FORBIDDEN_CMD, ∃ before after, c = before ++ e ++ after) ∧
    (ascii "touch" <:+: ascii "echo touchdown" ∧
      is_command_forbidden (ascii "echo touchdown") = true) ∧
    (∀ c : List Byte, is_command_forbidden c = false ↔
      ∀ e ∈ FORBIDDEN_CMD, ¬ e <:+: c) := by
  refine ⟨?_, ?_, ⟨by decide, by decide⟩, ?_⟩
  · intro c
    rw [is_command_forbidden_iff]
    simp only [FORBIDDEN_CMD, List.mem_cons, List.mem_singleton, exists_eq_or_imp,
      List.not_mem_nil, false_and, exists_false, or_false, exists_eq_left]
    tauto
  · intro c
    rw [is_command_forbidden_iff]
    constructor
    · rintro ⟨e, he, s, t, hst⟩
      exact ⟨e, he, s, t, hst.symm⟩
    · rintro ⟨e, he, s, t, hst⟩
      exact ⟨e, he, s, t, hst.symm⟩
  · intro c
    rw [← Bool.not_eq_true, is_command_forbidden_iff]
    simp

/-- A denylist entry written literally is caught wherever it stands: every
command that contains `/bin/rm`, and every command that contains an entry `e`
anywhere after a `;`, is forbidden, and a command that is not forbidden contains
no entry. -/
theorem literal_entry_is_forbidden (e : List Byte) (he : e ∈ FORBIDDEN_CMD)
    (benign between after : List Byte) :
    is_command_forbidden (benign ++ ascii "/bin/rm" ++ after) = true ∧
    is_command_forbidden (benign ++ ascii ";" ++ between ++ e ++ after) = true ∧
    (∀ c : List Byte, is_command_forbidden c = false → ¬ e <:+: c) := by
  refine ⟨?_, ?_, ?_⟩
  · refine is_command_forbidden_of_occurrence _ (ascii "rm") (by decide)
      ⟨benign ++ ascii "/bin/", after, ?_⟩
    have h : ascii "/bin/rm" = ascii "/bin/" ++ ascii "rm" := by decide
    rw [h]
    simp only [List.append_assoc]
  · exact is_command_forbidden_of_occurrence _ e he
      ⟨benign ++ ascii ";" ++ between, after, by simp only [List.append_assoc]⟩
  · intro c hc hin
    rw [is_command_forbidden_of_occurrence c e he hin] at hc
    cases hc

theorem cstr_initial (mem : List Byte) : cstr mem <+: mem :=
  List.takeWhile_prefix _

theorem cstr_eq_self (mem : List Byte) (h : 0 ∉ mem) : cstr mem = mem := by
  rw [cstr, List.takeWhile_eq_self_iff]
  intro b hb
  have : b ≠ 0 := fun h0 => h (h0 ▸ hb)
  simpa using this

theorem strstr_first_occurrence (before needle rest : List Byte) (hne : needle ≠ [])
    (hfirst : ¬ needle <:+: before ++ needle.dropLast) :
    strstr (before ++ needle ++ rest) needle = some (needle ++ rest) := by
  rcases List.eq_nil_or_concat needle with h | ⟨start, last, rfl⟩
  · exact absurd h hne
  simp only [List.concat_eq_append] at hfirst ⊢
  rw [List.dropLast_concat] at hfirst
  induction before with
  | nil =>
    cases start with
    | nil =>
      simp only [List.nil_append, List.cons_append]
      rw [strstr, if_pos]
      exact List.isPrefixOf_iff_prefix.mpr ⟨rest, rfl⟩
    | cons a t =>
      simp only [List.nil_append, List.cons_append]
      rw [strstr, if_pos]
      exact List.isPrefixOf_iff_prefix.mpr ⟨rest, rfl⟩
  | cons b before ih =>
    simp only [List.cons_append]
    rw [strstr, if_neg, ih]
    · rintro ⟨s, t, h⟩
      exact hfirst ⟨b :: s, t, by simp [← h]⟩
    · intro hp
      apply hfirst
      have hp2 := List.isPrefixOf_iff_prefix.mp hp
      have h2 : (b :: before ++ start) <+: b :: (before ++ (start ++ [last]) ++ rest) :=
        ⟨last :: rest, by simp⟩
      have hlen : (start ++ [last]).length ≤ (b :: before ++ start).length := by
        simp only [List.cons_append, List.length_cons, List.length_append,
          List.length_nil]
        omega
      exact (List.prefix_of_prefix_length_le hp2 h2 hlen).isInfix

theorem strstr_none_of_not_infix (hay needle : List Byte) (h : ¬ needle <:+: hay) :
    strstr hay needle = none := by
  cases hs : strstr hay needle with
  | none => rfl
  | some found =>
    exact absurd ((strstr_isSome_iff hay needle).mp (by simp [hs])) h

theorem decimal_length_le (n : Nat) (h : n < 2 ^ 64) : (decimal n).length ≤ 20 := by
  rw [decimal, List.length_map, Nat.toDigits]
  exact Nat.toDigitsCore_length 10 (by decide) (n + 1) n 20
    (lt_of_lt_of_le h (by norm_num)) (by decide)

theorem success_header_eq (body : List Byte) (h : body.length < 2 ^ 64) :
    success_header body =
      ascii "HTTP/1.1 200 OK\r\nContent-Type: text/plain\r\nContent-Length: " ++
      decimal body.length ++ ascii "\r\nConnection: close\r\n\r\n" := by
  have hd := decimal_length_le body.length h
  have e1 : ascii "HTTP/1.1 200 OK\r\n" ++ ascii "Content-Type: text/plain\r\n" ++
      ascii "Content-Length: " =
      ascii "HTTP/1.1 200 OK\r\nContent-Type: text/plain\r\nContent-Length: " := by decide
  have e2 : ascii "\r\n" ++ (ascii "Connection: close\r\n" ++ ascii "\r\n") =
      ascii "\r\nConnection: close\r\n\r\n" := by decide
  have l1 : (ascii "HTTP/1.1 200 OK\r\nContent-Type: text/plain\r\nContent-Length: ").length
      = 59 := by decide
  have l2 : (ascii "\r\nConnection: close\r\n\r\n").length = 23 := by decide
  rw [success_header, snprintf, strlen, e1]
  simp only [List.append_assoc]
  rw [e2, List.take_of_length_le]
  simp only [List.length_append, l1, l2, MSG_BUFFER_SIZE]
  omega

theorem forbidden_header_eq (body : List Byte) (h : body.length < 2 ^ 64) :
    forbidden_header body =
      ascii "HTTP/1.1 403 Forbidden\r\nContent-Type: text/plain\r\nContent-Length: " ++
      decimal body.length ++ ascii "\r\nConnection: close\r\n\r\n" := by
  have hd := decimal_length_le body.length h
  have e1 : ascii "HTTP/1.1 403 Forbidden\r\n" ++ ascii "Content-Type: text/plain\r\n" ++
      ascii "Content-Length: " =
      ascii "HTTP/1.1 403 Forbidden\r\nContent-Type: text/plain\r\nContent-Length: " := by
    decide
  have e2 : ascii "\r\n" ++ (ascii "Connection: close\r\n" ++ ascii "\r\n") =
      ascii "\r\nConnection: close\r\n\r\n" := by decide
  have l1 :
      (ascii "HTTP/1.1 403 Forbidden\r\nContent-Type: text/plain\r\nContent-Length: ").length
      = 66 := by decide
  have l2 : (ascii "\r\nConnection: close\r\n\r\n").length = 23 := by decide
  rw [forbidden_header, snprintf, strlen, e1]
  simp only [List.append_assoc]
  rw [e2, List.take_of_length_le]
  simp only [List.length_append, l1, l2, MSG_BUFFER_SIZE]
  omega

theorem send_args_send_call (fd : Int) (data : List Byte) (ok : Bool) (rest : List Event) :
    send_args fd (send_call fd data ok ++ rest) = data :: send_args fd rest := by
  cases ok <;> simp [send_call, send_args]

theorem bytes_written_send_call_ok (fd : Int) (data : List Byte) (rest : List Event) :
    bytes_written fd (send_call fd data true ++ rest) = data ++ bytes_written fd rest := by
  simp [send_call, bytes_written]

theorem spawns_send_call (fd : Int) (data : List Byte) (ok : Bool) (rest : List Event) :
    spawns (send_call fd data ok ++ rest) = spawns rest := by
  cases ok <;> simp [send_call, spawns]

theorem close_calls_send_call (fd : Int) (data : List Byte) (ok : Bool) (rest : List Event) :
    close_calls fd (send_call fd data ok ++ rest) = close_calls fd rest := by
  cases ok <;> simp [send_call, close_calls, List.count_cons]

theorem send_args_success (env : Env) (fd : Int) (body : List Byte) :
    send_args fd (send_http_response_success env fd body) = [success_header body, body] := by
  simp only [send_http_response_success, List.append_assoc, send_args_send_call]
  simp [send_args]

theorem send_args_forbidden (env : Env) (fd : Int) (body : List Byte) :
    send_args fd (send_http_response_forbidden env fd body) =
      [forbidden_header body, body] := by
  simp only [send_http_response_forbidden, List.append_assoc, send_args_send_call]
  simp [send_args]

theorem spawns_forbidden (env : Env) (fd : Int) (body : List Byte) :
    spawns (send_http_response_forbidden env fd body) = false := by
  simp only [send_http_response_forbidden, List.append_assoc, spawns_send_call]
  simp [spawns]

/-! ## The response writers -/

/-- C3: for every body `b` (its length a `size_t`), `send_http_response_success`
hands to `send` first the header "HTTP/1.1 200 OK", "Content-Type: text/plain",
"Content-Length: N", "Connection: close" and a blank line, every line ended by
CRLF, with N the decimal length of `b`, and then `b` itself, unchanged;
`send_http_response_forbidden` does the same with the status line
"HTTP/1.1 403 Forbidden". When both `send` calls succeed, the bytes written to
the connection are that header followed by `b`. -/
theorem C3_response_bytes (env : Env) (fd : Int) (b : List Byte) (hb : b.length < 2 ^ 64) :
    send_args fd (send_http_response_success env fd b) =
      [ascii "HTTP/1.1 200 OK\r\nContent-Type: text/plain\r\nContent-Length: " ++
        decimal b.length ++ ascii "\r\nConnection: close\r\n\r\n", b] ∧
    send_args fd (send_http_response_forbidden env fd b) =
      [ascii "HTTP/1.1 403 Forbidden\r\nContent-Type: text/plain\r\nContent-Length: " ++
        decimal b.length ++ ascii "\r\nConnection: close\r\n\r\n", b] ∧
    (env.send_header_ok = true → env.send_body_ok = true →
      bytes_written fd (send_http_response_success env fd b) =
        ascii "HTTP/1.1 200 OK\r\nContent-Type: text/plain\r\nContent-Length: " ++
          decimal b.length ++ ascii "\r\nConnection: close\r\n\r\n" ++ b ∧
      bytes_written fd (send_http_response_forbidden env fd b) =
        ascii "HTTP/1.1 403 Forbidden\r\nContent-Type: text/plain\r\nContent-Length: " ++
          decimal b.length ++ ascii "\r\nConnection: close\r\n\r\n" ++ b) := by
  refine ⟨?_, ?_, ?_⟩
  · rw [send_args_success, success_header_eq b hb]
  · rw [send_args_forbidden, forbidden_header_eq b hb]
  · intro h1 h2
    simp only [send_http_response_success, send_http_response_forbidden, h1, h2,
      List.append_assoc, bytes_written_send_call_ok, success_header_eq b hb,
      forbidden_header_eq b hb]
    simp [bytes_written]

theorem C3_response_bytes_witness :
    (ascii "hello\n").length < 2 ^ 64 ∧
    send_args 4 (send_http_response_success ⟨none, fun _ => none, true, true⟩ 4
        (ascii "hello\n")) =
      [ascii "HTTP/1.1 200 OK\r\nContent-Type: text/plain\r\nContent-Length: 6\r\nConnection: close\r\n\r\n",
       ascii "hello\n"] ∧
    bytes_written 4 (send_http_response_forbidden ⟨none, fun _ => none, true, true⟩ 4
        (ascii "hello\n")) =
      ascii "HTTP/1.1 403 Forbidden\r\nContent-Type: text/plain\r\nContent-Length: 6\r\nConnection: close\r\n\r\nhello\n" :=
  ⟨by decide,
   (C3_response_bytes ⟨none, fun _ => none, true, true⟩ 4 (ascii "hello\n") (by decide)).1,
   ((C3_response_bytes ⟨none, fun _ => none, true, true⟩ 4 (ascii "hello\n")
      (by decide)).2.2 rfl rfl).2⟩

/-! ## `handle_client` -/

theorem strstr_some_suffix (hay needle found : List Byte)
    (h : strstr hay needle = some found) : found <:+ hay := by
  induction hay with
  | nil =>
    rw [strstr] at h
    split at h
    · cases h
      exact List.suffix_refl _
    · cases h
  | cons a t ih =>
    rw [strstr] at h
    split at h
    · cases h
      exact List.suffix_refl _
    · exact (ih h).trans (List.suffix_cons a t)

theorem handle_client_of_found (env : Env) (fd : Int) (pending found : List Byte)
    (hrecv : env.pending = some pending)
    (hfound : strstr (cstr (pending.take (MSG_BUFFER_SIZE - 1))) CRLFCRLF = some found) :
    handle_client env fd =
      ⟨Event.printf (ascii "[Child] Received command: " ++ found.drop 4 ++ ascii "\n") ::
        (if is_command_forbidden (found.drop 4) = true then
          send_http_response_forbidden env fd (ascii "Forbidden command.")
         else execute_command env (found.drop 4) fd), false⟩ := by
  have hne : (pending.take (MSG_BUFFER_SIZE - 1)).length ≠ 0 := by
    intro h0
    have hnil : strstr (cstr []) CRLFCRLF = none := by decide
    rw [List.length_eq_zero.mp h0, hnil] at hfound
    cases hfound
  simp only [handle_client, hrecv, hne, if_false, hfound]
  split <;> rfl

theorem handle_client_of_not_found (env : Env) (fd : Int) (pending : List Byte)
    (hrecv : env.pending = some pending)
    (hnone : strstr (cstr (pending.take (MSG_BUFFER_SIZE - 1))) CRLFCRLF = none) :
    handle_client env fd =
      ⟨[if pending = [] then Event.perror (ascii "recv")
          else Event.printf (ascii "Malformed HTTP request (no body found).\n"),
        Event.close fd, Event.exit EXIT_FAILURE], true⟩ := by
  by_cases hp : pending = []
  · subst hp
    simp [handle_client, hrecv]
  · have hne : (pending.take (MSG_BUFFER_SIZE - 1)).length ≠ 0 := by
      cases pending with
      | nil => exact absurd rfl hp
      | cons a t => simp [MSG_BUFFER_SIZE]
    simp only [handle_client, hrecv, hne, if_false, hnone, hp]

/-- C2: when the command extracted from the request is forbidden,
`handle_client` logs it, sends the 403 header and the body "Forbidden command."
(Content-Length 18), closes the connection and returns; its trace holds no
`popen`, so no subprocess is spawned. Conversely, whenever the trace of
`handle_client` holds a `popen`, a command was extracted, `is_command_forbidden`
returned false on it, and the trace is that of `execute_command` on it. -/
theorem C2_forbidden_never_executes (env : Env) (fd : Int) :
    (∀ pending found : List Byte, env.pending = some pending →
      strstr (cstr (pending.take (MSG_BUFFER_SIZE - 1))) CRLFCRLF = some found →
      is_command_forbidden (found.drop 4) = true →
        handle_client env fd =
          ⟨Event.printf (ascii "[Child] Received command: " ++ found.drop 4 ++ ascii "\n") ::
            send_http_response_forbidden env fd (ascii "Forbidden command."), false⟩ ∧
        send_args fd (handle_client env fd).trace =
          [ascii "HTTP/1.1 403 Forbidden\r\nContent-Type: text/plain\r\nContent-Length: 18\r\nConnection: close\r\n\r\n",
           ascii "Forbidden command."] ∧
        spawns (handle_client env fd).trace = false) ∧
    (spawns (handle_client env fd).trace = true →
      ∃ pending found : List Byte, env.pending = some pending ∧
        strstr (cstr (pending.take (MSG_BUFFER_SIZE - 1))) CRLFCRLF = some found ∧
        is_command_forbidden (found.drop 4) = false ∧
        handle_client env fd =
          ⟨Event.printf (ascii "[Child] Received command: " ++ found.drop 4 ++ ascii "\n") ::
            execute_command env (found.drop 4) fd, false⟩) := by
  constructor
  · intro pending found hrecv hfound hforb
    have hrun := handle_client_of_found env fd pending found hrecv hfound
    rw [if_pos hforb] at hrun
    refine ⟨hrun, ?_, ?_⟩
    · rw [hrun]
      simp only [send_args, send_args_forbidden]
      have : forbidden_header (ascii "Forbidden command.") =
          ascii "HTTP/1.1 403 Forbidden\r\nContent-Type: text/plain\r\nContent-Length: 18\r\nConnection: close\r\n\r\n" := by
        decide
      rw [this]
    · rw [hrun]
      simp only [spawns, spawns_forbidden]
  · intro hsp
    cases hrecv : env.pending with
    | none =>
      simp [handle_client, hrecv, spawns] at hsp
    | some pending =>
      cases hfound : strstr (cstr (pending.take (MSG_BUFFER_SIZE - 1))) CRLFCRLF with
      | none =>
        rw [handle_client_of_not_found env fd pending hrecv hfound] at hsp
        by_cases hp : pending = [] <;> simp [hp, spawns] at hsp
      | some found =>
        have hrun := handle_client_of_found env fd pending found hrecv hfound
        by_cases hforb : is_command_forbidden (found.drop 4) = true
        · rw [if_pos hforb] at hrun
          rw [hrun] at hsp
          simp [spawns, spawns_forbidden] at hsp
        · rw [if_neg hforb] at hrun
          exact ⟨pending, found, rfl, hfound, by simpa using hforb, hrun⟩

theorem C2_forbidden_never_executes_witness :
    handle_client ⟨some (ascii "POST / HTTP/1.1\r\n\r\nrm -rf /tmp/x"),
        fun _ => some (ascii "removed\n"), true, true⟩ 4 =
      ⟨Event.printf (ascii "[Child] Received command: " ++
          (ascii "\r\n\r\nrm -rf /tmp/x").drop 4 ++ ascii "\n") ::
        send_http_response_forbidden ⟨some (ascii "POST / HTTP/1.1\r\n\r\nrm -rf /tmp/x"),
          fun _ => some (ascii "removed\n"), true, true⟩ 4 (ascii "Forbidden command."),
       false⟩ ∧
    send_args 4 (handle_client ⟨some (ascii "POST / HTTP/1.1\r\n\r\nrm -rf /tmp/x"),
        fun _ => some (ascii "removed\n"), true, true⟩ 4).trace =
      [ascii "HTTP/1.1 403 Forbidden\r\nContent-Type: text/plain\r\nContent-Length: 18\r\nConnection: close\r\n\r\n",
       ascii "Forbidden command."] ∧
    spawns (handle_client ⟨some (ascii "POST / HTTP/1.1\r\n\r\nrm -rf /tmp/x"),
        fun _ => some (ascii "removed\n"), true, true⟩ 4).trace = false :=
  (C2_forbidden_never_executes ⟨some (ascii "POST / HTTP/1.1\r\n\r\nrm -rf /tmp/x"),
      fun _ => some (ascii "removed\n"), true, true⟩ 4).1
    (ascii "POST / HTTP/1.1\r\n\r\nrm -rf /tmp/x") (ascii "\r\n\r\nrm -rf /tmp/x")
    rfl (by decide) (by decide)

/-- C7: when the bytes `recv` returned hold no "\r\n\r\n", `handle_client` makes
exactly three calls: a log line (`perror("recv")` when nothing was received, the
"Malformed HTTP request" notice otherwise), `close(client_fd)` and
`exit(EXIT_FAILURE)`. Nothing is handed to `send`, no byte is written, no
subprocess is spawned, the connection is closed once, and the child branch of
`start_server` adds no call after the exit. -/
theorem C7_no_delimiter_no_response (env : Env) (fd : Int) (pending : List Byte)
    (hrecv : env.pending = some pending)
    (hnone : ¬ CRLFCRLF <:+: pending.take (MSG_BUFFER_SIZE - 1)) :
    handle_client env fd =
      ⟨[if pending = [] then Event.perror (ascii "recv")
          else Event.printf (ascii "Malformed HTTP request (no body found).\n"),
        Event.close fd, Event.exit EXIT_FAILURE], true⟩ ∧
    send_args fd (handle_client env fd).trace = [] ∧
    bytes_written fd (handle_client env fd).trace = [] ∧
    spawns (handle_client env fd).trace = false ∧
    close_calls fd (handle_client env fd).trace = 1 ∧
    (∀ (server_sock : Int) (addr : List Byte),
      start_server_child env server_sock fd addr =
        Event.close server_sock :: (handle_client env fd).trace) := by
  have hn : strstr (cstr (pending.take (MSG_BUFFER_SIZE - 1))) CRLFCRLF = none := by
    apply strstr_none_of_not_infix
    intro hin
    exact hnone (hin.trans (cstr_initial _).isInfix)
  have hrun := handle_client_of_not_found env fd pending hrecv hn
  refine ⟨hrun, ?_, ?_, ?_, ?_, ?_⟩
  · rw [hrun]; by_cases hp : pending = [] <;> simp [hp, send_args]
  · rw [hrun]; by_cases hp : pending = [] <;> simp [hp, bytes_written]
  · rw [hrun]; by_cases hp : pending = [] <;> simp [hp, spawns]
  · rw [hrun]; by_cases hp : pending = [] <;> simp [hp, close_calls, List.count_cons]
  · intro server_sock addr
    simp [start_server_child, hrun]

theorem C7_no_delimiter_no_response_witness :
    handle_client ⟨some (ascii "not-http-at-all"), fun _ => some [], true, true⟩ 4 =
      ⟨[if ascii "not-http-at-all" = [] then Event.perror (ascii "recv")
          else Event.printf (ascii "Malformed HTTP request (no body found).\n"),
        Event.close 4, Event.exit EXIT_FAILURE], true⟩ ∧
    bytes_written 4
      (handle_client ⟨some (ascii "not-http-at-all"), fun _ => some [], true, true⟩ 4).trace
      = [] :=
  ⟨(C7_no_delimiter_no_response ⟨some (ascii "not-http-at-all"), fun _ => some [], true, true⟩
      4 (ascii "not-http-at-all") rfl (by decide)).1,
   (C7_no_delimiter_no_response ⟨some (ascii "not-http-at-all"), fun _ => some [], true, true⟩
      4 (ascii "not-http-at-all") rfl (by decide)).2.2.1⟩

/-- C6 (as stated, refuted): a received request may hold a NUL byte. In
"GET / \r\n\r\necho hi\x00; date" the bytes after the first "\r\n\r\n" are
"echo hi\x00; date", but the command `handle_client` executes is "echo hi"; and
"\x00\r\n\r\necho hi" contains the delimiter, yet is treated as malformed. -/
theorem C6_counterexample :
    ((ascii "GET / \r\n\r\necho hi\x00; date").length ≤ MSG_BUFFER_SIZE - 1 ∧
     ascii "GET / \r\n\r\necho hi\x00; date" =
       ascii "GET / " ++ CRLFCRLF ++ ascii "echo hi\x00; date" ∧
     ¬ CRLFCRLF <:+: ascii "GET / " ++ [13, 10, 13] ∧
     handle_client ⟨some (ascii "GET / \r\n\r\necho hi\x00; date"), fun _ => none, true, true⟩ 4
       = ⟨Event.printf (ascii "[Child] Received command: " ++ ascii "echo hi" ++ ascii "\n") ::
           execute_command ⟨some (ascii "GET / \r\n\r\necho hi\x00; date"), fun _ => none,
             true, true⟩ (ascii "echo hi") 4, false⟩ ∧
     ascii "echo hi" ≠ ascii "echo hi\x00; date") ∧
    (CRLFCRLF <:+: ascii "\x00\r\n\r\necho hi" ∧
     handle_client ⟨some (ascii "\x00\r\n\r\necho hi"), fun _ => none, true, true⟩ 4 =
       ⟨[Event.printf (ascii "Malformed HTTP request (no body found).\n"),
         Event.close 4, Event.exit EXIT_FAILURE], true⟩) := by
  decide

/-- C6 (amended): let the text of the request be the received bytes (at most
`MSG_BUFFER_SIZE - 1`) up to, and without, the first NUL byte; it is the whole
request when the request holds no NUL byte. When that text is
`before ++ "\r\n\r\n" ++ cmd` with no earlier occurrence of the delimiter, the
command `handle_client` logs, passes to `is_command_forbidden` and, if allowed,
to `execute_command`, is exactly `cmd`, whatever `before` holds. -/
theorem C6_command_after_first_delimiter (env : Env) (fd : Int)
    (received before cmd : List Byte)
    (hrecv : env.pending = some received)
    (hlen : received.length ≤ MSG_BUFFER_SIZE - 1)
    (hsplit : cstr received = before ++ CRLFCRLF ++ cmd)
    (hfirst : ¬ CRLFCRLF <:+: before ++ [13, 10, 13]) :
    handle_client env fd =
      ⟨Event.printf (ascii "[Child] Received command: " ++ cmd ++ ascii "\n") ::
        (if is_command_forbidden cmd = true then
          send_http_response_forbidden env fd (ascii "Forbidden command.")
         else execute_command env cmd fd), false⟩ ∧
    (0 ∉ received → received = before ++ CRLFCRLF ++ cmd) := by
  have hfound : strstr (cstr (received.take (MSG_BUFFER_SIZE - 1))) CRLFCRLF =
      some (CRLFCRLF ++ cmd) := by
    rw [List.take_of_length_le hlen, hsplit]
    exact strstr_first_occurrence before CRLFCRLF cmd (by decide) hfirst
  have hrun := handle_client_of_found env fd received (CRLFCRLF ++ cmd) hrecv hfound
  have hdrop : (CRLFCRLF ++ cmd).drop 4 = cmd := rfl
  rw [hdrop] at hrun
  exact ⟨hrun, fun h0 => by rw [← hsplit, cstr_eq_self received h0]⟩

theorem C6_command_after_first_delimiter_witness :
    handle_client ⟨some (ascii "GET / \r\nHeader: x\r\n\r\necho hello"),
        fun _ => some (ascii "hello\n"), true, true⟩ 4 =
      ⟨Event.printf (ascii "[Child] Received command: " ++ ascii "echo hello" ++ ascii "\n") ::
        (if is_command_forbidden (ascii "echo hello") = true then
          send_http_response_forbidden ⟨some (ascii "GET / \r\nHeader: x\r\n\r\necho hello"),
            fun _ => some (ascii "hello\n"), true, true⟩ 4 (ascii "Forbidden command.")
         else execute_command ⟨some (ascii "GET / \r\nHeader: x\r\n\r\necho hello"),
            fun _ => some (ascii "hello\n"), true, true⟩ (ascii "echo hello") 4), false⟩ ∧
    handle_client ⟨some (ascii "A: b\r\n\r\necho x\r\n\r\ny"),
        fun _ => some (ascii "x\n"), true, true⟩ 4 =
      ⟨Event.printf (ascii "[Child] Received command: " ++ ascii "echo x\r\n\r\ny" ++
          ascii "\n") ::
        (if is_command_forbidden (ascii "echo x\r\n\r\ny") = true then
          send_http_response_forbidden ⟨some (ascii "A: b\r\n\r\necho x\r\n\r\ny"),
            fun _ => some (ascii "x\n"), true, true⟩ 4 (ascii "Forbidden command.")
         else execute_command ⟨some (ascii "A: b\r\n\r\necho x\r\n\r\ny"),
            fun _ => some (ascii "x\n"), true, true⟩ (ascii "echo x\r\n\r\ny") 4), false⟩ :=
  ⟨(C6_command_after_first_delimiter
      ⟨some (ascii "GET / \r\nHeader: x\r\n\r\necho hello"), fun _ => some (ascii "hello\n"),
        true, true⟩ 4
      (ascii "GET / \r\nHeader: x\r\n\r\necho hello") (ascii "GET / \r\nHeader: x")
      (ascii "echo hello") rfl (by decide) (by decide) (by decide)).1,
   (C6_command_after_first_delimiter
      ⟨some (ascii "A: b\r\n\r\necho x\r\n\r\ny"), fun _ => some (ascii "x\n"), true, true⟩ 4
      (ascii "A: b\r\n\r\necho x\r\n\r\ny") (ascii "A: b") (ascii "echo x\r\n\r\ny")
      rfl (by decide) (by decide) (by decide)).1⟩

theorem not_forbidden_replicate (n : Nat) :
    is_command_forbidden (List.replicate n 97) = false := by
  rw [← Bool.not_eq_true, is_command_forbidden_iff]
  rintro ⟨e, he, hin⟩
  have hall : ∀ x ∈ e, x = 97 := fun x hx => List.eq_of_mem_replicate (hin.subset hx)
  have hother : ∀ e ∈ FORBIDDEN_CMD, ∃ x ∈ e, x ≠ 97 := by decide
  obtain ⟨x, hx, hne⟩ := hother e he
  exact hne (hall x hx)

theorem execute_command_head (env : Env) (cmd : List Byte) (fd : Int) :
    (execute_command env cmd fd).head? =
      some (Event.popen (full_command cmd) (env.subprocess (full_command cmd)).isSome) := by
  rw [execute_command]
  cases env.subprocess (full_command cmd) <;> simp

/-- C10: the first call of `execute_command` is `popen` on the first
`MSG_BUFFER_SIZE - 1 = 4095` bytes of `cmd ++ " 2>&1"`. That is `cmd ++ " 2>&1"`
in full when `cmd` has at most 4090 bytes, and `cmd ++ " 2>&"` when `cmd` has
exactly 4091 bytes. Every command `handle_client` extracts has at most 4091
bytes, and 4091 is reached: for the request "\r\n\r\n" followed by 4091 letters
`a`, `handle_client` calls `execute_command` on those 4091 bytes. -/
theorem C10_full_command_truncation (env : Env) (cmd : List Byte) (fd : Int) :
    (execute_command env cmd fd).head? =
      some (Event.popen ((cmd ++ ascii " 2>&1").take 4095)
        (env.subprocess ((cmd ++ ascii " 2>&1").take 4095)).isSome) ∧
    MSG_BUFFER_SIZE - 1 = 4095 ∧
    (cmd.length ≤ 4090 → (cmd ++ ascii " 2>&1").take 4095 = cmd ++ ascii " 2>&1") ∧
    (cmd.length = 4091 → (cmd ++ ascii " 2>&1").take 4095 = cmd ++ ascii " 2>&") ∧
    (∀ pending found : List Byte, env.pending = some pending →
      strstr (cstr (pending.take (MSG_BUFFER_SIZE - 1))) CRLFCRLF = some found →
      (found.drop 4).length ≤ 4091) ∧
    ((CRLFCRLF ++ List.replicate 4091 97).length = 4095 ∧
     handle_client ⟨some (CRLFCRLF ++ List.replicate 4091 97), env.subprocess,
        env.send_header_ok, env.send_body_ok⟩ fd =
      ⟨Event.printf (ascii "[Child] Received command: " ++ List.replicate 4091 97 ++
          ascii "\n") ::
        execute_command ⟨some (CRLFCRLF ++ List.replicate 4091 97), env.subprocess,
          env.send_header_ok, env.send_body_ok⟩ (List.replicate 4091 97) fd, false⟩) := by
  have hsuffix : (ascii " 2>&1").length = 5 := by decide
  have hdelim : CRLFCRLF.length = 4 := by decide
  refine ⟨execute_command_head env cmd fd, rfl, ?_, ?_, ?_, ?_, ?_⟩
  · intro h
    apply List.take_of_length_le
    rw [List.length_append, hsuffix]
    omega
  · intro h
    rw [List.take_append_eq_append_take, List.take_of_length_le (by omega), h]
    rfl
  · intro pending found _ hfound
    have h1 : found.length ≤ (cstr (pending.take (MSG_BUFFER_SIZE - 1))).length :=
      (strstr_some_suffix _ _ _ hfound).length_le
    have h2 : (cstr (pending.take (MSG_BUFFER_SIZE - 1))).length ≤
        (pending.take (MSG_BUFFER_SIZE - 1)).length := (cstr_initial _).length_le
    have h3 : (pending.take (MSG_BUFFER_SIZE - 1)).length ≤ 4095 := by
      rw [List.length_take]
      exact Nat.min_le_left _ _
    rw [List.length_drop]
    omega
  · rw [List.length_append, List.length_replicate, hdelim]
  · have hlen : (CRLFCRLF ++ List.replicate 4091 97).length ≤ MSG_BUFFER_SIZE - 1 := by
      rw [List.length_append, List.length_replicate, hdelim]
      decide
    have hnul : 0 ∉ CRLFCRLF ++ List.replicate 4091 97 := by
      intro h
      rcases List.mem_append.mp h with h | h
      · exact absurd h (by decide)
      · exact absurd (List.eq_of_mem_replicate h) (by decide)
    have hfound : strstr (cstr ((CRLFCRLF ++ List.replicate 4091 97).take
        (MSG_BUFFER_SIZE - 1))) CRLFCRLF = some (CRLFCRLF ++ List.replicate 4091 97) := by
      rw [List.take_of_length_le hlen, cstr_eq_self _ hnul]
      exact strstr_first_occurrence [] CRLFCRLF _ (by decide) (by decide)
    have hrun := handle_client_of_found
      ⟨some (CRLFCRLF ++ List.replicate 4091 97), env.subprocess, env.send_header_ok,
        env.send_body_ok⟩ fd _ _ rfl hfound
    have hdrop : (CRLFCRLF ++ List.replicate 4091 97).drop 4 = List.replicate 4091 97 := rfl
    have hallowed : ¬ is_command_forbidden (List.replicate 4091 97) = true := by
      rw [not_forbidden_replicate]
      exact Bool.false_ne_true
    rw [hdrop, if_neg hallowed] at hrun
    exact hrun

theorem C10_full_command_truncation_witness :
    ((ascii "echo hello").length ≤ 4090 ∧
      (ascii "echo hello" ++ ascii " 2>&1").take 4095 = ascii "echo hello" ++ ascii " 2>&1") ∧
    ((List.replicate 4091 97).length = 4091 ∧
      (List.replicate 4091 97 ++ ascii " 2>&1").take 4095 =
        List.replicate 4091 97 ++ ascii " 2>&") ∧
    ((ascii "\r\n\r\nls").drop 4).length ≤ 4091 :=
  ⟨⟨by decide,
    (C10_full_command_truncation ⟨none, fun _ => none, true, true⟩ (ascii "echo hello") 4).2.2.1
      (by decide)⟩,
   ⟨List.length_replicate _ _,
    (C10_full_command_truncation ⟨none, fun _ => none, true, true⟩
      (List.replicate 4091 97) 4).2.2.2.1 (List.length_replicate _ _)⟩,
   (C10_full_command_truncation ⟨some (ascii "GET /\r\n\r\nls"), fun _ => none, true, true⟩
      [] 4).2.2.2.2.1 (ascii "GET /\r\n\r\nls") (ascii "\r\n\r\nls") rfl (by decide)⟩

/-- C8 (the code at the failing inputs): with listening socket 3 and
connection socket 4, the child of `start_server` calls `close(4)` twice when
`handle_client` answers (200 or 403, whether or not the `send` calls succeed):
once in the response writer and once more after `handle_client` returns. It
calls `close(4)` once on the malformed-request and read-error paths and when
`popen` fails. -/
theorem C8_close_called_twice :
    start_server_child ⟨some (ascii "GET / \r\n\r\necho hello"),
        fun _ => some (ascii "hello\n"), true, true⟩ 3 4 (ascii "127.0.0.1") =
      [Event.close 3,
       Event.printf (ascii "[Child] Received command: echo hello\n"),
       Event.popen (ascii "echo hello 2>&1") true,
       Event.pclose,
       Event.send 4 (ascii "HTTP/1.1 200 OK\r\nContent-Type: text/plain\r\nContent-Length: 6\r\nConnection: close\r\n\r\n") true,
       Event.send 4 (ascii "hello\n") true,
       Event.close 4,
       Event.printf (ascii "[Child] Session closed.\n"),
       Event.close 4,
       Event.printf (ascii "Session closed for 127.0.0.1\n"),
       Event.exit 0] ∧
    close_calls 4 (start_server_child ⟨some (ascii "GET / \r\n\r\necho hello"),
        fun _ => some (ascii "hello\n"), true, true⟩ 3 4 (ascii "127.0.0.1")) = 2 ∧
    close_calls 4 (start_server_child ⟨some (ascii "GET / \r\n\r\nrm -rf /tmp/x"),
        fun _ => some [], true, true⟩ 3 4 (ascii "127.0.0.1")) = 2 ∧
    close_calls 4 (start_server_child ⟨some (ascii "GET / \r\n\r\necho hello"),
        fun _ => some (ascii "hello\n"), false, false⟩ 3 4 (ascii "127.0.0.1")) = 2 ∧
    close_calls 4 (start_server_child ⟨some (ascii "not-http-at-all"),
        fun _ => some [], true, true⟩ 3 4 (ascii "127.0.0.1")) = 1 ∧
    close_calls 4 (start_server_child ⟨none,
        fun _ => some [], true, true⟩ 3 4 (ascii "127.0.0.1")) = 1 ∧
    close_calls 4 (start_server_child ⟨some (ascii "GET / \r\n\r\necho hello"),
        fun _ => none, true, true⟩ 3 4 (ascii "127.0.0.1")) = 1 := by
  decide

/-! ## The read loop of `execute_command` -/

theorem fgets_read_append (room : Nat) (stream : List Byte) :
    (fgets_read room stream).1 ++ (fgets_read room stream).2 = stream := by
  induction room generalizing stream with
  | zero => simp [fgets_read]
  | succ n ih =>
    cases stream with
    | nil => simp [fgets_read]
    | cons b t =>
      rw [fgets_read]
      split
      · simp
      · simp [ih t]

theorem fgets_read_rest_le (room : Nat) (stream : List Byte) :
    (fgets_read room stream).2.length ≤ stream.length := by
  have h := congrArg List.length (fgets_read_append room stream)
  rw [List.length_append] at h
  omega

theorem fgets_some (b : Byte) (t : List Byte) :
    ∃ chunk rest, fgets MSG_BUFFER_SIZE (b :: t) = some (chunk, rest) ∧
      chunk ++ rest = b :: t ∧ rest.length ≤ t.length := by
  refine ⟨(fgets_read (MSG_BUFFER_SIZE - 1) (b :: t)).1,
    (fgets_read (MSG_BUFFER_SIZE - 1) (b :: t)).2, rfl, fgets_read_append _ _, ?_⟩
  have h : MSG_BUFFER_SIZE - 1 = 4094 + 1 := rfl
  rw [h, fgets_read]
  split
  · exact le_refl _
  · exact fgets_read_rest_le _ _

theorem read_loop_terminates (fuel : Nat) (fp output : List Byte) (h : fp.length < fuel) :
    ∃ result, read_loop fuel fp output = some result := by
  induction fuel generalizing fp output with
  | zero => exact absurd h (Nat.not_lt_zero _)
  | succ n ih =>
    cases fp with
    | nil => exact ⟨output, by simp [read_loop, fgets]⟩
    | cons b t =>
      obtain ⟨chunk, rest, hf, -, hlen⟩ := fgets_some b t
      rw [read_loop, hf]
      apply ih
      simp only [List.length_cons] at h
      omega

theorem take_append_take_append (output chunk rest : List Byte) (cap : Nat)
    (h : output.length ≤ cap) :
    (output ++ chunk.take (cap - output.length) ++ rest).take cap =
      (output ++ chunk ++ rest).take cap := by
  by_cases hc : chunk.length ≤ cap - output.length
  · rw [List.take_of_length_le hc]
  · have hk : cap - output.length ≤ chunk.length := by omega
    have hfull : (output ++ chunk.take (cap - output.length)).length = cap := by
      rw [List.length_append, List.length_take, Nat.min_eq_left hk]
      omega
    rw [List.take_left' hfull, List.append_assoc, List.take_append_eq_append_take,
      List.take_of_length_le h, List.take_append_of_le_length hk]

theorem read_loop_eq_take (fuel : Nat) (fp output : List Byte) (hfuel : fp.length < fuel)
    (hnul : 0 ∉ fp) (hout : output.length ≤ MSG_BUFFER_SIZE * 2 - 1) :
    read_loop fuel fp output = some ((output ++ fp).take (MSG_BUFFER_SIZE * 2 - 1)) := by
  induction fuel generalizing fp output with
  | zero => exact absurd hfuel (Nat.not_lt_zero _)
  | succ n ih =>
    cases fp with
    | nil =>
      rw [List.append_nil, List.take_of_length_le hout]
      simp [read_loop, fgets]
    | cons b t =>
      obtain ⟨chunk, rest, hf, happ, hlen⟩ := fgets_some b t
      have hchunk : 0 ∉ chunk := fun h => hnul (happ ▸ List.mem_append_left _ h)
      have hrest : 0 ∉ rest := fun h => hnul (happ ▸ List.mem_append_right _ h)
      have hk : MSG_BUFFER_SIZE * 2 - strlen output - 1 =
          MSG_BUFFER_SIZE * 2 - 1 - output.length := by
        rw [strlen]; omega
      rw [read_loop, hf]
      simp only [strncat, cstr_eq_self chunk hchunk, hk]
      rw [ih rest _ (by simp only [List.length_cons] at hfuel; omega) hrest, ← happ,
        take_append_take_append output chunk rest _ hout, List.append_assoc]
      rw [List.length_append, List.length_take]
      have := Nat.min_le_left (MSG_BUFFER_SIZE * 2 - 1 - output.length) chunk.length
      omega

theorem read_output_eq_take (stream : List Byte) (hnul : 0 ∉ stream) :
    read_output stream = stream.take (MSG_BUFFER_SIZE * 2 - 1) := by
  rw [read_output, read_loop_eq_take _ stream [] (Nat.lt_succ_self _) hnul (Nat.zero_le _)]
  rfl

theorem send_args_execute_command (env : Env) (cmd : List Byte) (fd : Int)
    (stream : List Byte) (h : env.subprocess (full_command cmd) = some stream) :
    send_args fd (execute_command env cmd fd) =
      [success_header (response_body stream), response_body stream] := by
  rw [execute_command, h]
  show send_args fd (Event.popen (full_command cmd) true :: Event.pclose ::
    send_http_response_success env fd (response_body stream)) = _
  simp only [send_args, send_args_success]

/-- C5: when `popen` succeeds and the subprocess writes `stream`, the read loop
of `execute_command` ends (with `stream.length + 1` iterations at most), and the
two `send` calls get the success header and a body that is never empty,
whatever `stream` is. When the subprocess writes nothing, the body is exactly
"Command executed but no output.\n" and the header announces its 32 bytes. -/
theorem C5_empty_output_sentinel (env : Env) (cmd : List Byte) (fd : Int)
    (stream : List Byte) (hrun : env.subprocess (full_command cmd) = some stream) :
    (∃ output, read_loop (stream.length + 1) stream [] = some output) ∧
    send_args fd (execute_command env cmd fd) =
      [success_header (response_body stream), response_body stream] ∧
    response_body stream ≠ [] ∧
    (stream = [] →
      response_body stream = ascii "Command executed but no output.\n" ∧
      send_args fd (execute_command env cmd fd) =
        [ascii "HTTP/1.1 200 OK\r\nContent-Type: text/plain\r\nContent-Length: 32\r\nConnection: close\r\n\r\n",
         ascii "Command executed but no output.\n"]) := by
  refine ⟨read_loop_terminates _ _ _ (Nat.lt_succ_self _),
    send_args_execute_command env cmd fd stream hrun, ?_, ?_⟩
  · simp only [response_body]
    split
    · decide
    · rename_i h
      intro hnil
      apply h
      rw [hnil]
      rfl
  · intro hnil
    subst hnil
    have hbody : response_body [] = ascii "Command executed but no output.\n" := by decide
    refine ⟨hbody, ?_⟩
    rw [send_args_execute_command env cmd fd [] hrun, hbody]
    have hh : success_header (ascii "Command executed but no output.\n") =
        ascii "HTTP/1.1 200 OK\r\nContent-Type: text/plain\r\nContent-Length: 32\r\nConnection: close\r\n\r\n" := by
      decide
    rw [hh]

theorem C5_empty_output_sentinel_witness :
    (response_body [] = ascii "Command executed but no output.\n" ∧
     send_args 4 (execute_command ⟨none, fun _ => some [], true, true⟩ (ascii "true") 4) =
       [ascii "HTTP/1.1 200 OK\r\nContent-Type: text/plain\r\nContent-Length: 32\r\nConnection: close\r\n\r\n",
        ascii "Command executed but no output.\n"]) ∧
    response_body (ascii "\x00hidden\n") ≠ [] :=
  ⟨(C5_empty_output_sentinel ⟨none, fun _ => some [], true, true⟩ (ascii "true") 4 []
      rfl).2.2.2 rfl,
   (C5_empty_output_sentinel ⟨none, fun _ => some (ascii "\x00hidden\n"), true, true⟩
      (ascii "true") 4 (ascii "\x00hidden\n") rfl).2.2.1⟩

/-- C4 (as stated, refuted): for a non-empty output of 8192 letters `a`, the body
`execute_command` sends is the first 8191 of them, not the output; and for the
non-empty output "a", NUL, "b", newline, the body is "a". -/
theorem C4_counterexample :
    (List.replicate 8192 97 ≠ [] ∧
     send_args 4 (execute_command ⟨none, fun _ => some (List.replicate 8192 97), true, true⟩
        (ascii "yes a | head -c 8192") 4) =
       [success_header (List.replicate 8191 97), List.replicate 8191 97] ∧
     List.replicate 8191 97 ≠ List.replicate 8192 97) ∧
    (ascii "a\x00b\n" ≠ [] ∧
     send_args 4 (execute_command ⟨none, fun _ => some (ascii "a\x00b\n"), true, true⟩
        (ascii "printf 'a\\000b\\n'") 4) = [success_header (ascii "a"), ascii "a"] ∧
     ascii "a" ≠ ascii "a\x00b\n") := by
  have hnul : 0 ∉ List.replicate 8192 97 := fun h =>
    absurd (List.eq_of_mem_replicate h) (by decide)
  have hbody : response_body (List.replicate 8192 97) = List.replicate 8191 97 := by
    rw [response_body]
    simp only [read_output_eq_take _ hnul]
    have ht : (List.replicate 8192 97).take (MSG_BUFFER_SIZE * 2 - 1) =
        List.replicate 8191 97 := by
      rw [List.take_replicate]
      rfl
    rw [ht, if_neg]
    rw [strlen, List.length_replicate]
    decide
  refine ⟨⟨?_, ?_, ?_⟩, ⟨by decide, by decide, by decide⟩⟩
  · intro h
    have := congrArg List.length h
    rw [List.length_replicate] at this
    exact absurd this (by decide)
  · rw [send_args_execute_command _ _ _ (List.replicate 8192 97) rfl, hbody]
  · intro h
    have := congrArg List.length h
    rw [List.length_replicate, List.length_replicate] at this
    exact absurd this (by decide)

/-- C4 (amended): when `popen` succeeds and the subprocess writes a non-empty
output `O` of at most `2 * MSG_BUFFER_SIZE - 1 = 8191` bytes, none of them NUL,
the read loop ends with `O`, the body handed to `send` is `O` byte for byte, and
the header before it announces `Content-Length: N` with N the decimal length of
`O`; when both `send` calls succeed the bytes written are that header followed
by `O`. -/
theorem C4_output_round_trip (env : Env) (cmd : List Byte) (fd : Int) (O : List Byte)
    (hrun : env.subprocess (full_command cmd) = some O)
    (hne : O ≠ [])
    (hlen : O.length ≤ MSG_BUFFER_SIZE * 2 - 1)
    (hnul : 0 ∉ O) :
    read_loop (O.length + 1) O [] = some O ∧
    response_body O = O ∧
    send_args fd (execute_command env cmd fd) =
      [ascii "HTTP/1.1 200 OK\r\nContent-Type: text/plain\r\nContent-Length: " ++
        decimal O.length ++ ascii "\r\nConnection: close\r\n\r\n", O] ∧
    (env.send_header_ok = true → env.send_body_ok = true →
      bytes_written fd (execute_command env cmd fd) =
        ascii "HTTP/1.1 200 OK\r\nContent-Type: text/plain\r\nContent-Length: " ++
          decimal O.length ++ ascii "\r\nConnection: close\r\n\r\n" ++ O) := by
  have hloop : read_loop (O.length + 1) O [] = some O := by
    rw [read_loop_eq_take _ O [] (Nat.lt_succ_self _) hnul (Nat.zero_le _), List.nil_append,
      List.take_of_length_le hlen]
  have hbody : response_body O = O := by
    rw [response_body]
    simp only [read_output, hloop, Option.getD_some]
    rw [if_neg]
    rw [strlen]
    exact fun h => hne (List.length_eq_zero.mp h)
  have h64 : O.length < 2 ^ 64 := by
    have h2 : MSG_BUFFER_SIZE * 2 - 1 < 2 ^ 64 := by decide
    omega
  refine ⟨hloop, hbody, ?_, ?_⟩
  · rw [send_args_execute_command env cmd fd O hrun, hbody, success_header_eq O h64]
  · intro h1 h2
    rw [execute_command, hrun]
    simp only [send_http_response_success, h1, h2, hbody, List.append_assoc,
      List.cons_append, List.nil_append, bytes_written, bytes_written_send_call_ok,
      success_header_eq O h64]
    simp [bytes_written]

theorem C4_output_round_trip_witness :
    send_args 4 (execute_command ⟨none, fun _ => some (ascii "hello\nworld\n"), true, true⟩
        (ascii "echo hello; echo world") 4) =
      [ascii "HTTP/1.1 200 OK\r\nContent-Type: text/plain\r\nContent-Length: " ++
        decimal (ascii "hello\nworld\n").length ++ ascii "\r\nConnection: close\r\n\r\n",
       ascii "hello\nworld\n"] :=
  (C4_output_round_trip ⟨none, fun _ => some (ascii "hello\nworld\n"), true, true⟩
    (ascii "echo hello; echo world") 4 (ascii "hello\nworld\n") rfl (by decide) (by decide)
    (by decide)).2.2.1

end Lab3
